import Mathlib

/-!
Shallow embedding of the CAP alert-archive ingestion pipeline:
the CAP document parser `parseCapXml` (app/utils/xmlParser.ts) and the
batch pipeline driven by `handleFileChange`
(app/components/SachetUploadPanel.tsx).

JavaScript numbers reached by this code are either NaN, an infinity, or a
finite value; finite values are modelled exactly as rationals.  String
conversion `Number(s)` is modelled by `jsNumber` below, covering the
string-numeric-literal grammar (optional sign, decimal digits, fraction,
exponent, `Infinity`, empty string, hex / octal / binary literals).
-/

/-- A JavaScript number as produced by `Number(string)`: NaN, ±Infinity,
or a finite value (modelled exactly as a rational). -/
inductive JsNum
  | nan
  | inf (pos : Bool)
  | num (q : ℚ)
  deriving DecidableEq, Repr

/-- The JavaScript `isNaN` test on an already-converted number. -/
def JsNum.isNaN : JsNum → Bool
  | .nan => true
  | _ => false

/-- JavaScript strict equality `===` on numbers: NaN is equal to nothing
(including itself); other values compare structurally. -/
def jsEq : JsNum → JsNum → Bool
  | .inf p, .inf q => p == q
  | .num a, .num b => a == b
  | _, _ => false

/-- Numeric value of a list of ASCII decimal digits. -/
def digitsVal (cs : List Char) : Nat :=
  cs.foldl (fun a c => 10 * a + (c.toNat - 48)) 0

/-- Non-empty all-decimal-digit check. -/
def allDigits (cs : List Char) : Bool :=
  !cs.isEmpty && cs.all Char.isDigit

/-- Exponent part of a numeric literal (after the `e`/`E`): optional sign
followed by decimal digits. -/
def parseExp : List Char → Option Int
  | '+' :: rest => if allDigits rest then some (digitsVal rest : Int) else none
  | '-' :: rest => if allDigits rest then some (-(digitsVal rest : Int)) else none
  | rest => if allDigits rest then some (digitsVal rest : Int) else none

/-- Mantissa of a decimal literal: digits with an optional fraction part,
at least one digit overall.  The value is returned as a numerator together
with a power-of-ten scale: `value = numerator / 10 ^ scale`. -/
def parseMant (cs : List Char) : Option (Nat × Nat) :=
  let ip := cs.takeWhile Char.isDigit
  let rest := cs.dropWhile Char.isDigit
  match rest with
  | [] => if ip.isEmpty then none else some (digitsVal ip, 0)
  | '.' :: fp =>
    if fp.all Char.isDigit then
      if ip.isEmpty && fp.isEmpty then none
      else some (digitsVal ip * 10 ^ fp.length + digitsVal fp, fp.length)
    else none
  | _ => none

/-- Unsigned decimal literal with optional exponent. -/
def parseDec (cs : List Char) : Option ℚ :=
  let mant := cs.takeWhile (fun c => !(c == 'e' || c == 'E'))
  let rest := cs.dropWhile (fun c => !(c == 'e' || c == 'E'))
  match rest with
  | [] => (parseMant mant).map (fun m => mkRat m.1 (10 ^ m.2))
  | _ :: expPart =>
    match parseMant mant, parseExp expPart with
    | some m, some e =>
      let t : Int := e - (m.2 : Int)
      some (if 0 ≤ t then mkRat ((m.1 : Int) * (10 : Int) ^ t.toNat) 1
            else mkRat (m.1 : Int) (10 ^ (-t).toNat))
    | _, _ => none

/-- Value of one hexadecimal digit character. -/
def hexDigitVal (c : Char) : Option Nat :=
  if c.isDigit then some (c.toNat - 48)
  else if 'a' ≤ c ∧ c ≤ 'f' then some (c.toNat - 87)
  else if 'A' ≤ c ∧ c ≤ 'F' then some (c.toNat - 55)
  else none

/-- Non-empty digit string in the given radix. -/
def parseRadix (b : Nat) (cs : List Char) : Option Nat :=
  if cs.isEmpty then none
  else
    cs.foldl
      (fun acc c =>
        match acc, hexDigitVal c with
        | some a, some d => if d < b then some (b * a + d) else none
        | _, _ => none)
      (some 0)

/-- Optionally signed decimal literal or `Infinity`; anything else is NaN. -/
def parseSignedDec (cs : List Char) : JsNum :=
  let signBody : Bool × List Char :=
    match cs with
    | '+' :: r => (false, r)
    | '-' :: r => (true, r)
    | r => (false, r)
  if signBody.2 = "Infinity".toList then JsNum.inf !signBody.1
  else
    match parseDec signBody.2 with
    | some q => JsNum.num (if signBody.1 then Rat.neg q else q)
    | none => JsNum.nan

/-- Leading and trailing whitespace removal, as `ToNumber` performs on
strings. -/
def jsTrim (cs : List Char) : List Char :=
  ((cs.dropWhile Char.isWhitespace).reverse.dropWhile Char.isWhitespace).reverse

/-- The JavaScript `Number(string)` conversion: trims whitespace, maps the
empty string to 0, recognises radix-prefixed integer literals (unsigned
only) and otherwise an optionally signed decimal literal or `Infinity`. -/
def jsNumber (s : String) : JsNum :=
  match jsTrim s.toList with
  | [] => JsNum.num 0
  | '0' :: c :: rest =>
    if c == 'x' || c == 'X' then
      match parseRadix 16 rest with
      | some n => JsNum.num (mkRat n 1)
      | none => JsNum.nan
    else if c == 'o' || c == 'O' then
      match parseRadix 8 rest with
      | some n => JsNum.num (mkRat n 1)
      | none => JsNum.nan
    else if c == 'b' || c == 'B' then
      match parseRadix 2 rest with
      | some n => JsNum.num (mkRat n 1)
      | none => JsNum.nan
    else parseSignedDec ('0' :: c :: rest)
  | cs => parseSignedDec cs

/-! ## GeoJSON data model (the fragment the parser produces). -/

/-- One GeoJSON position `[longitude, latitude]` as built by the parser
(`[lng, lat]`): first component longitude, second latitude. -/
abbrev Coord := JsNum × JsNum

/-- The geometry kinds the parser can emit. `polygon` carries the ring
list (outer ring plus holes); `multiPolygon` carries a list of such. -/
inductive Geometry
  | polygon (coordinates : List (List Coord))
  | multiPolygon (coordinates : List (List (List Coord)))
  deriving DecidableEq, Repr

/-- Alert-level properties (`commonProperties` in xmlParser.ts); an absent
or empty text node is `none` (the source maps both to `undefined`). -/
structure AlertProps where
  identifier : Option String
  sender : Option String
  sent : Option String
  status : Option String
  msgType : Option String
  scope : Option String
  deriving DecidableEq, Repr

/-- Info-level properties (`infoProperties` in xmlParser.ts). -/
structure InfoProps where
  category : Option String
  event : Option String
  urgency : Option String
  severity : Option String
  certainty : Option String
  effective : Option String
  onset : Option String
  expires : Option String
  headline : Option String
  description : Option String
  instruction : Option String
  deriving DecidableEq, Repr

/-- One `area` element: its extracted text fields plus the list of trimmed
non-empty `polygon` text contents (`polygonStrings` in xmlParser.ts). -/
structure AreaBlock where
  areaDesc : Option String
  altitude : Option String
  ceiling : Option String
  polygonStrings : List String
  deriving DecidableEq, Repr

/-- The flat merged property bag `{ ...commonProperties, ...infoProperties,
areaDesc, altitude, ceiling }` attached to every emitted Feature. -/
structure CapProperties where
  identifier : Option String
  sender : Option String
  sent : Option String
  status : Option String
  msgType : Option String
  scope : Option String
  category : Option String
  event : Option String
  urgency : Option String
  severity : Option String
  certainty : Option String
  effective : Option String
  onset : Option String
  expires : Option String
  headline : Option String
  description : Option String
  instruction : Option String
  areaDesc : Option String
  altitude : Option String
  ceiling : Option String
  deriving DecidableEq, Repr

/-- The object-spread merge of alert, info and area fields; the field sets
are disjoint, so the merge is a plain record build. -/
def mkFeatureProps (c : AlertProps) (i : InfoProps) (a : AreaBlock) : CapProperties :=
  { identifier := c.identifier, sender := c.sender, sent := c.sent,
    status := c.status, msgType := c.msgType, scope := c.scope,
    category := i.category, event := i.event, urgency := i.urgency,
    severity := i.severity, certainty := i.certainty, effective := i.effective,
    onset := i.onset, expires := i.expires, headline := i.headline,
    description := i.description, instruction := i.instruction,
    areaDesc := a.areaDesc, altitude := a.altitude, ceiling := a.ceiling }

/-- A GeoJSON Feature: a property bag plus a geometry that may be absent
(the metadata-only case pushes `geometry: null`). -/
structure Feature where
  properties : CapProperties
  geometry : Option Geometry
  deriving DecidableEq, Repr

/-! ## Coordinate-string parsing (the body of `parseCapXml`). -/

/-- Splitting of a character list at every character satisfying `p`, in
the way the JavaScript one-character `split` behaves: adjacent separators
produce empty fields, and the empty input yields one empty field. -/
def splitAtP (p : Char → Bool) : List Char → List (List Char)
  | [] => [[]]
  | c :: rest =>
    let r := splitAtP p rest
    if p c then [] :: r
    else
      match r with
      | [] => [[c]]
      | t :: ts => (c :: t) :: ts

/-- `polyStr.split(/\s+/)`: whitespace-delimited tokens of a polygon
string (empty tokens from adjacent whitespace merge away). -/
def splitWs (s : String) : List String :=
  ((splitAtP Char.isWhitespace s.toList).filter (fun t => !t.isEmpty)).map
    (fun t => String.mk t)

/-- `pair.split(',').map(Number)`: the comma-separated components of one
token, each converted by `Number`. -/
def pairComponents (pair : String) : List JsNum :=
  (splitAtP (fun c => c == ',') pair.toList).map (fun cs => jsNumber (String.mk cs))

/-- The destructured `lat`: first component, or NaN when missing
(`isNaN(undefined)` is true, so a missing component behaves as NaN). -/
def pairLat (pair : String) : JsNum :=
  (pairComponents pair).getD 0 JsNum.nan

/-- The destructured `lng`: second component, or NaN when missing. -/
def pairLng (pair : String) : JsNum :=
  (pairComponents pair).getD 1 JsNum.nan

/-- One token of a polygon string: `null` (dropped) when either of the
first two components is NaN, else the position `[lng, lat]`. -/
def parsePair (pair : String) : Option Coord :=
  if (pairLat pair).isNaN || (pairLng pair).isNaN then none
  else some (pairLng pair, pairLat pair)

/-- The filtered coordinate list of one polygon string: tokens whose pair
parse failed are dropped, the rest of the ring is kept. -/
def ringCoords (polyStr : String) : List Coord :=
  (splitWs polyStr).filterMap parsePair

/-- Ring-closure step: if the first and last coordinates differ under `!==`
on either axis, a copy of the first coordinate is appended. -/
def closeRing : List Coord → List Coord
  | [] => []
  | first :: rest =>
    let last := rest.getLast?.getD first
    if !jsEq first.1 last.1 || !jsEq first.2 last.2 then
      (first :: rest) ++ [(first.1, first.2)]
    else first :: rest

/-- Processing of one polygon string: parse and filter the pairs, discard
the whole ring when fewer than 3 coordinates remain, else close it. -/
def processRing (polyStr : String) : Option (List Coord) :=
  let coordinates := ringCoords polyStr
  if coordinates.length < 3 then none
  else some (closeRing coordinates)

/-- Processing of one `area` element: with no polygon strings, a
metadata-only Feature when `areaDesc` is present (else nothing); with
polygon strings, the retained rings are collected (each wrapped as a
single-ring polygon), and the area yields nothing when none survive, a
Polygon Feature for one, a MultiPolygon Feature for several. -/
def processArea (c : AlertProps) (i : InfoProps) (a : AreaBlock) : List Feature :=
  if a.polygonStrings.isEmpty then
    match a.areaDesc with
    | some _ => [⟨mkFeatureProps c i a, none⟩]
    | none => []
  else
    match a.polygonStrings.filterMap (fun s => (processRing s).map (fun r => [r])) with
    | [] => []
    | [p] => [⟨mkFeatureProps c i a, some (Geometry.polygon p)⟩]
    | ps => [⟨mkFeatureProps c i a, some (Geometry.multiPolygon ps)⟩]

/-- One `info` element: its properties and its `area` children. -/
structure InfoBlock where
  props : InfoProps
  areas : List AreaBlock
  deriving DecidableEq, Repr

/-- One `alert` element: its properties and its `info` children. -/
structure CapAlert where
  props : AlertProps
  infos : List InfoBlock
  deriving DecidableEq, Repr

/-- An input document as seen after the external DOM parse: markup that
fails to parse, markup without an alert element, or an alert tree. -/
inductive CapDoc
  | malformed
  | noAlert
  | alert (a : CapAlert)
  deriving DecidableEq, Repr

/-- `parseCapXml`: a parse error or a missing alert element yields no
features; otherwise every area of every info block is processed in
document order. -/
def parseCapXml : CapDoc → List Feature
  | .malformed => []
  | .noAlert => []
  | .alert a => a.infos.flatMap (fun i => i.areas.flatMap (processArea a.props i.props))

/-! ## Batch pipeline (`handleFileChange` in SachetUploadPanel.tsx). -/

/-- Result of `zipEntry.async('string')` followed by the DOM parse: either
a document, or a thrown decode error (the `catch` branch). -/
inductive EntryRead
  | ok (d : CapDoc)
  | readError (msg : String)
  deriving DecidableEq, Repr

/-- One archive entry: its path, directory flag, and content read. -/
structure ZipEntry where
  relativePath : String
  dir : Bool
  content : EntryRead
  deriving DecidableEq, Repr

/-- The candidate filter: non-directory entries whose lower-cased name
ends in `.xml`. -/
def isXmlCandidate (e : ZipEntry) : Bool :=
  !e.dir && ".xml".toList.isSuffixOf (e.relativePath.toList.map Char.toLower)

/-- The two batch-level failure conditions: the archive had no XML entries,
or the XML entries yielded no features. -/
inductive PipelineError
  | emptyArchiveError
  | noFeaturesError
  deriving DecidableEq, Repr

/-- The aggregated result of a successful run. -/
structure BatchResult where
  features : List Feature
  processedCount : Nat
  totalCount : Nat
  deriving DecidableEq, Repr

/-- Either a batch-level error message or a normal result. -/
inductive RunOutcome
  | failure (e : PipelineError)
  | success (r : BatchResult)
  deriving DecidableEq, Repr

/-- What a run makes observable: the ordered list of progress callback
invocations `(processedCount, totalCount)` and the final outcome. -/
structure RunTrace where
  progressCalls : List (Nat × Nat)
  outcome : RunOutcome
  deriving DecidableEq, Repr

/-- The body of the processing loop for one entry: a candidate whose read
succeeds has its features appended and the counter bumped with a progress
call; a failed read is logged only; non-candidates are skipped. -/
def entryStep (total : Nat) (acc : List Feature × Nat × List (Nat × Nat))
    (e : ZipEntry) : List Feature × Nat × List (Nat × Nat) :=
  if isXmlCandidate e then
    match e.content with
    | .ok d => (acc.1 ++ parseCapXml d, acc.2.1 + 1, acc.2.2 ++ [(acc.2.1 + 1, total)])
    | .readError _ => acc
  else acc

/-- The processing loop over all entries in archive order. -/
def processEntries (total : Nat) (entries : List ZipEntry) :
    List Feature × Nat × List (Nat × Nat) :=
  entries.foldl (entryStep total) ([], 0, [])

/-- The full run: count candidates first; zero candidates is the
empty-archive failure before any processing; otherwise process every
entry, then report no-features when the accumulator stayed empty, else
the aggregated result. -/
def runPipeline (entries : List ZipEntry) : RunTrace :=
  let xmlFileCount := (entries.filter isXmlCandidate).length
  if xmlFileCount = 0 then
    ⟨[], .failure .emptyArchiveError⟩
  else
    let r := processEntries xmlFileCount entries
    if r.1.isEmpty then ⟨r.2.2, .failure .noFeaturesError⟩
    else ⟨r.2.2, .success ⟨r.1, r.2.1, xmlFileCount⟩⟩

/-! ## Derived descriptions used by the theorems. -/

/-- The polygons (lists of rings) of a geometry. -/
def Geometry.polys : Geometry → List (List (List Coord))
  | .polygon p => [p]
  | .multiPolygon ps => ps

/-- Every polygon reachable from a feature list, in order; features with
absent geometry contribute nothing. -/
def featurePolys (fs : List Feature) : List (List (List Coord)) :=
  fs.flatMap (fun f =>
    match f.geometry with
    | none => []
    | some g => g.polys)

/-- The documents of the candidate entries whose read succeeds, in archive
order. -/
def okDocs (entries : List ZipEntry) : List CapDoc :=
  entries.filterMap (fun e =>
    if isXmlCandidate e then
      match e.content with
      | .ok d => some d
      | .readError _ => none
    else none)

/-- The progress-call sequence produced from counter value `n` on: one
call per successfully read candidate entry, none for the others. -/
def progressOf (total : Nat) : Nat → List ZipEntry → List (Nat × Nat)
  | _, [] => []
  | n, e :: rest =>
    if isXmlCandidate e then
      match e.content with
      | .ok _ => (n + 1, total) :: progressOf total (n + 1) rest
      | .readError _ => progressOf total n rest
    else progressOf total n rest

/-! ## Concrete sample data for witnesses and counterexamples. -/

/-- Alert-level properties with every field absent. -/
def blankAlertProps : AlertProps := ⟨none, none, none, none, none, none⟩

/-- Info-level properties with every field absent. -/
def blankInfoProps : InfoProps :=
  ⟨none, none, none, none, none, none, none, none, none, none, none⟩

/-- An area with a description and no polygon strings. -/
def descOnlyArea : AreaBlock := ⟨some "Zone B", none, none, []⟩

/-- An area with a description and one polygon string whose ring fails
validation (only one valid pair). -/
def invalidPolyArea : AreaBlock := ⟨some "Zone A", none, none, ["0,0"]⟩

/-- An alert whose single area carries only an invalid polygon string. -/
def invalidPolyAlert : CapAlert :=
  ⟨blankAlertProps, [⟨blankInfoProps, [invalidPolyArea]⟩]⟩

/-- An area with one valid polygon string. -/
def validArea : AreaBlock := ⟨some "Zone C", none, none, ["0,0 1,0 1,1"]⟩

/-- An area with two valid polygon strings. -/
def twoRingArea : AreaBlock :=
  ⟨some "Zone D", none, none, ["10,20 11,21 10,21 10,20", "0,0 1,0 1,1 0,0"]⟩

/-- An alert whose single area carries one valid polygon string. -/
def validAlert : CapAlert := ⟨blankAlertProps, [⟨blankInfoProps, [validArea]⟩]⟩

/-- An XML entry that reads and parses to one feature. -/
def goodEntry : ZipEntry := ⟨"a.xml", false, .ok (.alert validAlert)⟩

/-- An XML entry whose read throws. -/
def badEntry : ZipEntry := ⟨"b.xml", false, .readError "read failed"⟩

/-- A non-XML entry. -/
def textEntry : ZipEntry := ⟨"notes.txt", false, .ok .malformed⟩

/-- An XML entry whose document parse recovers with zero features. -/
def emptyDocEntry : ZipEntry := ⟨"c.xml", false, .ok .malformed⟩

/-! ## Helper lemmas. -/

lemma jsEq_eq {x y : JsNum} (h : jsEq x y = true) : x = y := by
  cases x <;> cases y <;> simp_all [jsEq]

lemma jsEq_self {x : JsNum} (h : x.isNaN = false) : jsEq x x = true := by
  cases x <;> simp_all [jsEq, JsNum.isNaN]

lemma parsePair_not_nan {p : String} {c : Coord} (h : parsePair p = some c) :
    c.1.isNaN = false ∧ c.2.isNaN = false := by
  unfold parsePair at h
  split at h
  · exact absurd h (by simp)
  · rename_i hcond
    rw [Bool.or_eq_true, not_or] at hcond
    obtain ⟨h1, h2⟩ := hcond
    obtain rfl : (pairLng p, pairLat p) = c := by injection h
    exact ⟨by simpa using h2, by simpa using h1⟩

lemma mem_ringCoords_not_nan {s : String} {c : Coord} (h : c ∈ ringCoords s) :
    c.1.isNaN = false ∧ c.2.isNaN = false := by
  obtain ⟨t, _, ht⟩ := List.mem_filterMap.mp h
  exact parsePair_not_nan ht

lemma getLast?_cons_getD {α : Type} (a : α) (l : List α) :
    (a :: l).getLast? = some (l.getLast?.getD a) := by
  induction l generalizing a with
  | nil => rfl
  | cons b l ih => rw [List.getLast?_cons_cons, ih b]; rfl

lemma filterMap_map_comm {α β γ : Type} (f : α → Option β) (g : β → γ) (l : List α) :
    l.filterMap (fun x => (f x).map g) = (l.filterMap f).map g := by
  induction l with
  | nil => simp
  | cons a l ih => cases h : f a <;> simp [List.filterMap_cons, h, ih]

lemma okDocs_eq_nil_of_no_candidates {entries : List ZipEntry}
    (h : (entries.filter isXmlCandidate).length = 0) : okDocs entries = [] := by
  rw [List.length_eq_zero, List.filter_eq_nil_iff] at h
  rw [okDocs, List.filterMap_eq_nil_iff]
  intro e he
  simp [h e he]

lemma okDocs_cons_ok {e : ZipEntry} {rest : List ZipEntry} {d : CapDoc}
    (hc : isXmlCandidate e = true) (hE : e.content = .ok d) :
    okDocs (e :: rest) = d :: okDocs rest := by
  simp [okDocs, List.filterMap_cons, hc, hE]

lemma okDocs_cons_err {e : ZipEntry} {rest : List ZipEntry} {m : String}
    (hc : isXmlCandidate e = true) (hE : e.content = .readError m) :
    okDocs (e :: rest) = okDocs rest := by
  simp [okDocs, List.filterMap_cons, hc, hE]

lemma okDocs_cons_non {e : ZipEntry} {rest : List ZipEntry}
    (hc : isXmlCandidate e = false) :
    okDocs (e :: rest) = okDocs rest := by
  simp [okDocs, List.filterMap_cons, hc]

lemma progressOf_cons_ok {total n : Nat} {e : ZipEntry} {rest : List ZipEntry} {d : CapDoc}
    (hc : isXmlCandidate e = true) (hE : e.content = .ok d) :
    progressOf total n (e :: rest) = (n + 1, total) :: progressOf total (n + 1) rest := by
  simp [progressOf, hc, hE]

lemma progressOf_cons_err {total n : Nat} {e : ZipEntry} {rest : List ZipEntry} {m : String}
    (hc : isXmlCandidate e = true) (hE : e.content = .readError m) :
    progressOf total n (e :: rest) = progressOf total n rest := by
  simp [progressOf, hc, hE]

lemma progressOf_cons_non {total n : Nat} {e : ZipEntry} {rest : List ZipEntry}
    (hc : isXmlCandidate e = false) :
    progressOf total n (e :: rest) = progressOf total n rest := by
  simp [progressOf, hc]

lemma foldl_entryStep (total : Nat) (entries : List ZipEntry) :
    ∀ (fs : List Feature) (n : Nat) (cs : List (Nat × Nat)),
      entries.foldl (entryStep total) (fs, n, cs) =
        (fs ++ (okDocs entries).flatMap parseCapXml,
         n + (okDocs entries).length,
         cs ++ progressOf total n entries) := by
  induction entries with
  | nil => intro fs n cs; simp [okDocs, progressOf]
  | cons e rest ih =>
    intro fs n cs
    rw [List.foldl_cons]
    by_cases hc : isXmlCandidate e
    · cases hE : e.content with
      | ok d =>
        rw [show entryStep total (fs, n, cs) e =
            (fs ++ parseCapXml d, n + 1, cs ++ [(n + 1, total)]) by
          simp [entryStep, hc, hE]]
        rw [ih, okDocs_cons_ok hc hE, progressOf_cons_ok hc hE]
        simp only [List.flatMap_cons, List.length_cons, List.append_assoc, Prod.mk.injEq]
        refine ⟨by simp, by omega, by simp⟩
      | readError m =>
        rw [show entryStep total (fs, n, cs) e = (fs, n, cs) by simp [entryStep, hc, hE]]
        rw [ih, okDocs_cons_err hc hE, progressOf_cons_err hc hE]
    · rw [show entryStep total (fs, n, cs) e = (fs, n, cs) by simp [entryStep, hc]]
      rw [ih, okDocs_cons_non (by simpa using hc), progressOf_cons_non (by simpa using hc)]

lemma processEntries_eq (total : Nat) (entries : List ZipEntry) :
    processEntries total entries =
      ((okDocs entries).flatMap parseCapXml,
       (okDocs entries).length,
       progressOf total 0 entries) := by
  have h := foldl_entryStep total entries [] 0 []
  simpa [processEntries] using h

lemma progressOf_eq_range (total : Nat) (entries : List ZipEntry) :
    ∀ n, progressOf total n entries =
      (List.range (okDocs entries).length).map (fun i => (n + i + 1, total)) := by
  induction entries with
  | nil => intro n; simp [progressOf, okDocs]
  | cons e rest ih =>
    intro n
    by_cases hc : isXmlCandidate e
    · cases hE : e.content with
      | ok d =>
        rw [progressOf_cons_ok hc hE, ih (n + 1), okDocs_cons_ok hc hE]
        rw [List.length_cons, List.range_succ_eq_map, List.map_cons, List.map_map]
        refine congrArg₂ _ (by simp) ?_
        refine List.map_congr_left fun i _ => ?_
        simp only [Function.comp, Prod.mk.injEq]
        exact ⟨by omega, trivial⟩
      | readError m =>
        rw [progressOf_cons_err hc hE, okDocs_cons_err hc hE]
        exact ih n
    · rw [progressOf_cons_non (by simpa using hc), okDocs_cons_non (by simpa using hc)]
      exact ih n

/-! ## Claim theorems. -/

/-- C8: an archive whose entries contain no XML candidates fails with the
empty-archive error, with no progress call and nothing processed. -/
theorem c8_empty_archive (entries : List ZipEntry)
    (h : (entries.filter isXmlCandidate).length = 0) :
    runPipeline entries = ⟨[], .failure .emptyArchiveError⟩ := by
  simp [runPipeline, h]

/-- C8 witness: a one-entry archive holding only a text file fails with
the empty-archive error and an empty progress trace. -/
theorem c8_empty_archive_wit :
    ([textEntry].filter isXmlCandidate).length = 0 ∧
    runPipeline [textEntry] = ⟨[], .failure .emptyArchiveError⟩ :=
  ⟨by decide, c8_empty_archive [textEntry] (by decide)⟩

/-- C9: with at least one candidate entry, a run whose accumulated feature
list is empty fails with the no-features error (an error distinct from the
empty-archive one), and otherwise returns the accumulated result. -/
theorem c9_no_features (entries : List ZipEntry)
    (h : 0 < (entries.filter isXmlCandidate).length) :
    ((okDocs entries).flatMap parseCapXml = [] →
      (runPipeline entries).outcome = .failure .noFeaturesError) ∧
    ((okDocs entries).flatMap parseCapXml ≠ [] →
      (runPipeline entries).outcome = .success
        ⟨(okDocs entries).flatMap parseCapXml, (okDocs entries).length,
         (entries.filter isXmlCandidate).length⟩) ∧
    PipelineError.noFeaturesError ≠ PipelineError.emptyArchiveError := by
  have hne : ¬(entries.filter isXmlCandidate).length = 0 := by omega
  refine ⟨?_, ?_, by simp⟩
  · intro hempty
    simp [runPipeline, hne, processEntries_eq, hempty]
  · intro hnon
    have : ((okDocs entries).flatMap parseCapXml).isEmpty = false :=
      List.isEmpty_eq_false.mpr hnon
    simp [runPipeline, hne, processEntries_eq, this]

/-- C9 witness: a single recovered-empty document gives the no-features
failure; a single feature-bearing document gives the aggregated result. -/
theorem c9_no_features_wit :
    0 < ([emptyDocEntry].filter isXmlCandidate).length ∧
    0 < ([goodEntry].filter isXmlCandidate).length ∧
    (runPipeline [emptyDocEntry]).outcome = .failure .noFeaturesError ∧
    (runPipeline [goodEntry]).outcome = .success
      ⟨(okDocs [goodEntry]).flatMap parseCapXml, (okDocs [goodEntry]).length,
       ([goodEntry].filter isXmlCandidate).length⟩ :=
  ⟨by decide, by decide,
   (c9_no_features [emptyDocEntry] (by decide)).1 (by decide),
   (c9_no_features [goodEntry] (by decide)).2.1 (by decide)⟩

/-- C2 counterexample: an archive whose single candidate entry errors on
read produces no progress call at all, not one call per entry. -/
theorem c2_progress_cex :
    ([badEntry].filter isXmlCandidate).length = 1 ∧
    (runPipeline [badEntry]).progressCalls = [] := by decide

/-- C2 amended: the progress callback fires exactly once per successfully
read candidate entry, in order, with processed counts 1, 2, … and the
candidate total as second component; entries whose read errors are skipped
without a progress call. -/
theorem c2_progress_per_success (entries : List ZipEntry) :
    (runPipeline entries).progressCalls =
      (List.range (okDocs entries).length).map
        (fun i => (i + 1, (entries.filter isXmlCandidate).length)) := by
  by_cases h : (entries.filter isXmlCandidate).length = 0
  · have hd : okDocs entries = [] := okDocs_eq_nil_of_no_candidates h
    simp [runPipeline, h, hd]
  · have hcalls : (runPipeline entries).progressCalls =
        (processEntries (entries.filter isXmlCandidate).length entries).2.2 := by
      rw [runPipeline]
      simp only [h, if_false]
      rw [apply_ite RunTrace.progressCalls]
      simp
    rw [hcalls, processEntries_eq,
      progressOf_eq_range (entries.filter isXmlCandidate).length entries 0]
    simp

/-- C1 counterexample: an area whose only polygon string fails ring
validation but which carries a non-empty description yields no Feature at
all — the area is silently dropped, not emitted as a metadata-only
Feature. -/
theorem c1_metadata_cex :
    invalidPolyArea.areaDesc = some "Zone A" ∧
    invalidPolyArea.polygonStrings = ["0,0"] ∧
    processRing "0,0" = none ∧
    parseCapXml (.alert invalidPolyAlert) = [] := by decide

/-- C1 amended: an area with no polygon strings at all and a present
description yields exactly one Feature with absent geometry whose property
bag carries that description; an area that has polygon strings but whose
rings all fail validation yields no Feature (it is silently dropped). -/
theorem c1_metadata_feature (c : AlertProps) (i : InfoProps) (a : AreaBlock) :
    (a.polygonStrings = [] → a.areaDesc.isSome = true →
      processArea c i a = [⟨mkFeatureProps c i a, none⟩] ∧
      (mkFeatureProps c i a).areaDesc = a.areaDesc) ∧
    (a.polygonStrings ≠ [] → (∀ s ∈ a.polygonStrings, processRing s = none) →
      processArea c i a = []) := by
  constructor
  · intro h hd
    cases hdesc : a.areaDesc with
    | none => rw [hdesc] at hd; simp at hd
    | some d => exact ⟨by simp [processArea, h, hdesc], by simp [mkFeatureProps, hdesc]⟩
  · intro hne hall
    have hmap : a.polygonStrings.filterMap (fun s => (processRing s).map (fun r => [r])) = [] := by
      rw [List.filterMap_eq_nil_iff]
      intro s hs
      simp [hall s hs]
    have hE : a.polygonStrings.isEmpty = false := by
      simpa [List.isEmpty_eq_false] using hne
    simp [processArea, hE, hmap]

/-- C1 witness: the metadata-only Feature appears for an area with a
description and no polygon strings, and the all-invalid area is dropped. -/
theorem c1_metadata_feature_wit :
    descOnlyArea.polygonStrings = [] ∧ descOnlyArea.areaDesc.isSome = true ∧
    processArea blankAlertProps blankInfoProps descOnlyArea =
      [⟨mkFeatureProps blankAlertProps blankInfoProps descOnlyArea, none⟩] ∧
    (mkFeatureProps blankAlertProps blankInfoProps descOnlyArea).areaDesc =
      descOnlyArea.areaDesc ∧
    invalidPolyArea.polygonStrings ≠ [] ∧
    processArea blankAlertProps blankInfoProps invalidPolyArea = [] :=
  ⟨by decide, by decide,
   ((c1_metadata_feature blankAlertProps blankInfoProps descOnlyArea).1
      (by decide) (by decide)).1,
   ((c1_metadata_feature blankAlertProps blankInfoProps descOnlyArea).1
      (by decide) (by decide)).2,
   by decide,
   (c1_metadata_feature blankAlertProps blankInfoProps invalidPolyArea).2
      (by decide) (by decide)⟩

/-- C3 counterexample: a ring whose three valid pairs are all the same
coordinate — only one distinct pair — is still retained. -/
theorem c3_min_pairs_cex :
    processRing "2,3 2,3 2,3" =
      some [(JsNum.num 3, JsNum.num 2), (JsNum.num 3, JsNum.num 2), (JsNum.num 3, JsNum.num 2)] ∧
    (ringCoords "2,3 2,3 2,3").dedup.length = 1 := by decide

/-- C3 amended: a ring is discarded exactly when fewer than 3 valid pairs
remain after filtering, counted with multiplicity (distinctness is not
required); a discarded ring contributes no polygon to any Feature's
geometry, since the emitted geometry carries exactly the retained rings. -/
theorem c3_min_pairs :
    (∀ polyStr : String, processRing polyStr = none ↔ (ringCoords polyStr).length < 3) ∧
    (∀ (c : AlertProps) (i : InfoProps) (a : AreaBlock),
      featurePolys (processArea c i a) =
        a.polygonStrings.filterMap (fun s => (processRing s).map (fun r => [r]))) := by
  constructor
  · intro s
    unfold processRing
    by_cases h : (ringCoords s).length < 3 <;> simp [h]
  · intro c i a
    unfold processArea
    by_cases hp : a.polygonStrings.isEmpty
    · have hnil : a.polygonStrings = [] := by simpa [List.isEmpty_iff] using hp
      cases hd : a.areaDesc <;> simp [hp, hd, featurePolys, hnil]
    · rw [if_neg (by simpa using hp)]
      rcases hm : a.polygonStrings.filterMap (fun s => (processRing s).map (fun r => [r])) with
        _ | ⟨p, _ | ⟨q, ps⟩⟩ <;>
        simp [featurePolys, Geometry.polys]

/-- C4 counterexample: the token `Infinity,0` parses to two numbers that
are not both finite, yet it is retained (as the position
`[0, Infinity]`), because the filter only rejects NaN. -/
theorem c4_finite_cex :
    (jsNumber "Infinity").isNaN = false ∧
    parsePair "Infinity,0" = some (JsNum.num 0, JsNum.inf true) := by decide

/-- C4 amended: a token is dropped exactly when one of its first two
components converts to NaN (a missing second component behaves as NaN);
non-finite infinities pass the filter.  Dropping is per token: the ring's
coordinate list is the pair-parse filter of its token list. -/
theorem c4_nan_filter :
    (∀ pair : String,
      parsePair pair = none ↔ ((pairLat pair).isNaN = true ∨ (pairLng pair).isNaN = true)) ∧
    (∀ polyStr : String, ringCoords polyStr = (splitWs polyStr).filterMap parsePair) := by
  constructor
  · intro pair
    unfold parsePair
    by_cases h1 : (pairLat pair).isNaN <;> by_cases h2 : (pairLng pair).isNaN <;>
      simp [h1, h2]
  · intro polyStr
    rfl

/-- C5: every ring emitted by the ring processor starts and ends with the
same coordinate: when the filtered list's first and last coordinates
differ a copy of the first is appended, and a ring whose filtered list is
already closed is passed through unchanged. -/
theorem c5_ring_closure :
    (∀ (s : String) (r : List Coord), processRing s = some r →
      r ≠ [] ∧ r.head? = r.getLast?) ∧
    (∀ (s : String) (r : List Coord), processRing s = some r →
      (ringCoords s).head? = (ringCoords s).getLast? → r = ringCoords s) := by
  have key : ∀ (s : String) (r : List Coord), processRing s = some r →
      r = closeRing (ringCoords s) ∧ 3 ≤ (ringCoords s).length := by
    intro s r h
    by_cases hlen : (ringCoords s).length < 3
    · simp [processRing, hlen] at h
    · simp only [processRing, hlen, if_false, Option.some.injEq] at h
      exact ⟨h.symm, by omega⟩
  constructor
  · intro s r h
    obtain ⟨rfl, hlen⟩ := key s r h
    rcases hc : ringCoords s with _ | ⟨first, rest⟩
    · rw [hc] at hlen; simp at hlen
    · by_cases hcond : (!jsEq first.1 (rest.getLast?.getD first).1 ||
          !jsEq first.2 (rest.getLast?.getD first).2) = true
      · rw [show closeRing (first :: rest) = (first :: rest) ++ [(first.1, first.2)] by
          simp [closeRing, hcond]]
        refine ⟨by simp, ?_⟩
        rw [List.getLast?_concat]
        rfl
      · have hand : jsEq first.1 (rest.getLast?.getD first).1 = true ∧
            jsEq first.2 (rest.getLast?.getD first).2 = true := by
          simpa using hcond
        have hfl : first = rest.getLast?.getD first :=
          Prod.ext_iff.mpr ⟨jsEq_eq hand.1, jsEq_eq hand.2⟩
        rw [show closeRing (first :: rest) = first :: rest by
          simp [closeRing, hand.1, hand.2]]
        refine ⟨by simp, ?_⟩
        rw [getLast?_cons_getD, ← hfl]
        rfl
  · intro s r h hclosed
    obtain ⟨rfl, hlen⟩ := key s r h
    rcases hc : ringCoords s with _ | ⟨first, rest⟩
    · rw [hc] at hlen; simp at hlen
    · rw [hc, getLast?_cons_getD] at hclosed
      have hfl : first = rest.getLast?.getD first := by
        simpa using hclosed
      have hmem : first ∈ ringCoords s := by
        rw [hc]; exact List.mem_cons_self _ _
      obtain ⟨h1, h2⟩ := mem_ringCoords_not_nan hmem
      have hcond : (!jsEq first.1 (rest.getLast?.getD first).1 ||
          !jsEq first.2 (rest.getLast?.getD first).2) = false := by
        rw [← hfl]
        simp [jsEq_self h1, jsEq_self h2]
      simp [closeRing, hcond]

/-- C5 witness: a non-pre-closed ring comes back closed (a copy of its
first coordinate appended), and a pre-closed ring comes back unchanged. -/
theorem c5_ring_closure_wit :
    ([(JsNum.num 0, JsNum.num 0), (JsNum.num 0, JsNum.num 1),
      (JsNum.num 1, JsNum.num 1), (JsNum.num 0, JsNum.num 0)] : List Coord) ≠ [] ∧
    ([(JsNum.num 0, JsNum.num 0), (JsNum.num 0, JsNum.num 1),
      (JsNum.num 1, JsNum.num 1), (JsNum.num 0, JsNum.num 0)] : List Coord).head? =
      ([(JsNum.num 0, JsNum.num 0), (JsNum.num 0, JsNum.num 1),
        (JsNum.num 1, JsNum.num 1), (JsNum.num 0, JsNum.num 0)] : List Coord).getLast? ∧
    [(JsNum.num 0, JsNum.num 0), (JsNum.num 0, JsNum.num 1),
     (JsNum.num 1, JsNum.num 1), (JsNum.num 0, JsNum.num 0)] =
      ringCoords "0,0 1,0 1,1 0,0" :=
  ⟨(c5_ring_closure.1 "0,0 1,0 1,1" _ (by decide)).1,
   (c5_ring_closure.1 "0,0 1,0 1,1" _ (by decide)).2,
   c5_ring_closure.2 "0,0 1,0 1,1 0,0" _ (by decide) (by decide)⟩

/-- C6: an area with exactly one surviving ring yields exactly one Feature
with a Polygon geometry over that ring; an area with two or more surviving
rings yields exactly one Feature with a MultiPolygon geometry whose
coordinates are the surviving rings in order, each as an independent
single-ring polygon. -/
theorem c6_geometry_promotion (c : AlertProps) (i : InfoProps) (a : AreaBlock) :
    (∀ r, a.polygonStrings.filterMap processRing = [r] →
      processArea c i a = [⟨mkFeatureProps c i a, some (Geometry.polygon [r])⟩]) ∧
    (2 ≤ (a.polygonStrings.filterMap processRing).length →
      processArea c i a = [⟨mkFeatureProps c i a,
        some (Geometry.multiPolygon
          ((a.polygonStrings.filterMap processRing).map (fun r => [r])))⟩]) := by
  have key : a.polygonStrings.filterMap (fun s => (processRing s).map (fun r => [r])) =
      (a.polygonStrings.filterMap processRing).map (fun r => [r]) :=
    filterMap_map_comm _ _ _
  constructor
  · intro r hr
    have hne : a.polygonStrings.isEmpty = false := by
      rcases hnil : a.polygonStrings with _ | _
      · rw [hnil] at hr; simp at hr
      · rfl
    unfold processArea
    rw [if_neg (by simp [hne]), key, hr]
    simp
  · intro h2
    rcases hm : a.polygonStrings.filterMap processRing with _ | ⟨r1, _ | ⟨r2, rs⟩⟩
    · rw [hm] at h2; simp at h2
    · rw [hm] at h2; simp at h2
    · have hne : a.polygonStrings.isEmpty = false := by
        rcases hnil : a.polygonStrings with _ | _
        · rw [hnil] at hm; simp at hm
        · rfl
      unfold processArea
      rw [if_neg (by simp [hne]), key, hm]
      simp

/-- C6 witness: one valid polygon string gives a Polygon Feature; two give
a single MultiPolygon Feature over both rings in order. -/
theorem c6_geometry_promotion_wit :
    validArea.polygonStrings.filterMap processRing =
      [[(JsNum.num 0, JsNum.num 0), (JsNum.num 0, JsNum.num 1),
        (JsNum.num 1, JsNum.num 1), (JsNum.num 0, JsNum.num 0)]] ∧
    processArea blankAlertProps blankInfoProps validArea =
      [⟨mkFeatureProps blankAlertProps blankInfoProps validArea,
        some (Geometry.polygon
          [[(JsNum.num 0, JsNum.num 0), (JsNum.num 0, JsNum.num 1),
            (JsNum.num 1, JsNum.num 1), (JsNum.num 0, JsNum.num 0)]])⟩] ∧
    2 ≤ (twoRingArea.polygonStrings.filterMap processRing).length ∧
    processArea blankAlertProps blankInfoProps twoRingArea =
      [⟨mkFeatureProps blankAlertProps blankInfoProps twoRingArea,
        some (Geometry.multiPolygon
          ((twoRingArea.polygonStrings.filterMap processRing).map (fun r => [r])))⟩] :=
  ⟨by decide,
   (c6_geometry_promotion blankAlertProps blankInfoProps validArea).1 _ (by decide),
   by decide,
   (c6_geometry_promotion blankAlertProps blankInfoProps twoRingArea).2 (by decide)⟩

/-- C7: a retained pair swaps the axes — the output position is
`[lng, lat]` for an input token `lat,lng` — and in particular
`28.6139,77.2090` converts to the position `[77.2090, 28.6139]`. -/
theorem c7_axis_swap :
    parsePair "28.6139,77.2090" =
      some (JsNum.num (mkRat 772090 10000), JsNum.num (mkRat 286139 10000)) ∧
    (∀ pair : String, (pairLat pair).isNaN = false → (pairLng pair).isNaN = false →
      parsePair pair = some (pairLng pair, pairLat pair)) := by
  refine ⟨by decide, ?_⟩
  intro pair h1 h2
  simp [parsePair, h1, h2]

/-- C7 witness: the axis swap applied to `28.6139,77.2090`. -/
theorem c7_axis_swap_wit :
    (pairLat "28.6139,77.2090").isNaN = false ∧
    (pairLng "28.6139,77.2090").isNaN = false ∧
    parsePair "28.6139,77.2090" =
      some (pairLng "28.6139,77.2090", pairLat "28.6139,77.2090") :=
  ⟨by decide, by decide, c7_axis_swap.2 "28.6139,77.2090" (by decide) (by decide)⟩

/-- C10: a token with more than two comma-separated components is retained
when its first two components parse as numbers, the extra components being
ignored: the pair parse depends only on the first two components. -/
theorem c10_extra_components :
    parsePair "10,20,30" = some (JsNum.num 20, JsNum.num 10) ∧
    2 < (pairComponents "10,20,30").length ∧
    (∀ p q : String, (pairComponents p).take 2 = (pairComponents q).take 2 →
      parsePair p = parsePair q) := by
  refine ⟨by decide, by decide, ?_⟩
  have key : ∀ (l m : List JsNum), l.take 2 = m.take 2 →
      l.getD 0 JsNum.nan = m.getD 0 JsNum.nan ∧
      l.getD 1 JsNum.nan = m.getD 1 JsNum.nan := by
    intro l m h
    rcases l with _ | ⟨a, _ | ⟨a2, l⟩⟩ <;> rcases m with _ | ⟨b, _ | ⟨b2, m⟩⟩ <;>
      simp_all [List.take, List.getD]
  intro p q h
  obtain ⟨h0, h1⟩ := key _ _ h
  unfold parsePair pairLat pairLng
  rw [h0, h1]

/-- C10 witness: appending a third component leaves the parse of the
first two untouched. -/
theorem c10_extra_components_wit :
    (pairComponents "10,20,30").take 2 = (pairComponents "10,20").take 2 ∧
    parsePair "10,20,30" = parsePair "10,20" :=
  ⟨by decide, c10_extra_components.2.2 "10,20,30" "10,20" (by decide)⟩
